import Mathlib

/-!
Verification of the Lythra module core: module registry (definitions,
instances, settings migration), module sandbox factory (storage, fetch,
audio, notifications accessors), event bus, and per-instance atoms registry.

The definitions below are a shallow embedding of the TypeScript sources:
  - src/src/lib/modules/moduleRegistry.ts   (ModuleRegistry)
  - src/src/lib/modules/moduleSandbox.ts    (createModuleSandbox and helpers)
  - src/unnamed/part_001                    (EventBus, ModuleEventType)
  - src/unnamed/part_003                    (ModuleAtomsRegistry)
  - src/src/types/module.ts                 (data model)

JavaScript `Map` objects are embedded as insertion-ordered association
lists (`Map.set` replaces in place or appends; `Map.delete` removes the
entry).  Host platform primitives (IndexedDB via idb-keyval, `fetch`,
`Audio`, `Notification`, the service worker channel) are external
collaborators and enter as explicit parameters or effect traces.  Object
identity, where observable (atoms bundles, audio elements, the event-log
array), is modelled with explicit allocation counters.
-/

namespace Lythra

/-! ## JavaScript `Map` semantics over association lists -/

/-- Embedding of `Map.get`: the value stored at `k`, if any. -/
def jsMapGet [DecidableEq κ] (k : κ) : List (κ × α) → Option α
  | [] => none
  | (k₂, v) :: rest => if k₂ = k then some v else jsMapGet k rest

/-- Embedding of `Map.set`: replaces the entry for `k` in place, or appends
a new entry at the end (JS Maps are insertion-ordered). -/
def jsMapSet [DecidableEq κ] (k : κ) (v : α) : List (κ × α) → List (κ × α)
  | [] => [(k, v)]
  | (k₂, v₂) :: rest =>
    if k₂ = k then (k, v) :: rest else (k₂, v₂) :: jsMapSet k v rest

/-- Embedding of `Map.delete`: removes the entry for `k`, if present. -/
def jsMapDelete [DecidableEq κ] (k : κ) : List (κ × α) → List (κ × α)
  | [] => []
  | (k₂, v₂) :: rest =>
    if k₂ = k then rest else (k₂, v₂) :: jsMapDelete k rest

/-- Embedding of `Map.has`. -/
def jsMapHas [DecidableEq κ] (k : κ) (m : List (κ × α)) : Bool :=
  (jsMapGet k m).isSome

/-! ## Data model (src/src/types/module.ts) -/

/-- JSON-serializable values (`Json` from src/src/types/common.ts).
Numeric literals are embedded as integers; none of the verified code
computes with them. -/
inductive Json where
  | null
  | bool (b : Bool)
  | num (n : Int)
  | str (s : String)
  | arr (elems : List Json)
  | obj (fields : List (String × Json))

/-- `Record<string, Json>`, the settings object of a module instance. -/
abbrev Settings := List (String × Json)

/-- The closed set of capability tokens (`ModulePermission`). -/
inductive ModulePermission where
  | storageRead
  | storageWrite
  | networkRead
  | networkWrite
  | audioPlay
  | notificationsCreate
deriving DecidableEq, Repr

/-- Module position in the dashboard grid (`ModulePosition`). -/
structure ModulePosition where
  x : Int
  y : Int
deriving DecidableEq, Repr

/-- Module size in the dashboard grid (`ModuleSize`). -/
structure ModuleSize where
  width : Int
  height : Int
deriving DecidableEq, Repr

/-- One placed module instance (`ModuleConfig`). -/
structure ModuleConfig where
  id : String
  type : String
  version : String
  position : ModulePosition
  size : ModuleSize
  settings : Settings
  createdAt : String
  updatedAt : String

/-- A module type definition (`ModuleDefinition`).  The UI fields (`icon`,
`previewImage`, `Component`) and the Zod `settingsSchema` are opaque host
values not consulted by the registry operations verified here, so they are
omitted from the embedding.  A throwing `migrationStrategy` is embedded as
an `Except`-valued function. -/
structure ModuleDefinition where
  type : String
  name : String
  description : String
  version : String
  compatibleWith : List String
  category : String
  defaultSize : ModuleSize
  defaultSettings : Settings
  permissions : List ModulePermission
  migrationStrategy : Option (Settings → String → String → Except String Settings)

/-- The six event types of the bus (`ModuleEventType`, a closed union of
string literals). -/
inductive ModuleEventType where
  | moduleInitialized
  | moduleSettingsChanged
  | moduleStateChanged
  | moduleError
  | dashboardLayoutChanged
  | dashboardEditModeChanged
deriving DecidableEq, Repr

/-! ## Event bus (src/unnamed/part_001, class EventBus)

Subscriber callbacks are opaque host functions; the bus stores them in a
`Set` per event type.  The embedding identifies a callback by a natural
number and takes the callbacks' behaviour as an environment
`env : Nat → ModuleEvent π → Except String Unit` (a callback either
returns or throws).  Callbacks are modelled as not re-entering the bus.
The event-log array (`this.eventLog`) and the copies handed out by
`getEventLog` are JS array objects whose identity is observable, so the
embedding stores array contents in a heap of numbered cells:
`Array.prototype.push` mutates the cell in place, while `slice` and the
spread `[...this.eventLog]` allocate fresh cells. -/

/-- An event record (`ModuleEvent`), parametric in the payload type
(`payload?: any`). -/
structure ModuleEvent (π : Type) where
  type : ModuleEventType
  moduleId : Option String
  moduleType : Option String
  payload : Option π
  timestamp : Nat
deriving DecidableEq, Repr

/-- The arguments of one `emit` call; `now` is the `Date.now()` value the
host clock supplies during the call. -/
structure EmitArgs (π : Type) where
  eventType : ModuleEventType
  payload : Option π
  moduleId : Option String
  moduleType : Option String
  now : Nat
deriving DecidableEq, Repr

/-- The event record `emit` constructs from its arguments. -/
def eventOfArgs (a : EmitArgs π) : ModuleEvent π :=
  ⟨a.eventType, a.moduleId, a.moduleType, a.payload, a.now⟩

/-- State of the `EventBus` class: the subscriber map `events` (callback
ids per type, in insertion order), and the heap of array cells holding the
event log, with `logRef` the cell `this.eventLog` currently points at and
`fresh` the next unallocated cell. -/
structure EventBus (π : Type) where
  events : List (ModuleEventType × List Nat)
  heap : Nat → List (ModuleEvent π)
  logRef : Nat
  fresh : Nat

/-- A freshly constructed `EventBus`: no subscribers, `this.eventLog = []`. -/
def initialBus : EventBus π :=
  { events := [], heap := fun _ => [], logRef := 0, fresh := 1 }

/-- `private maxLogSize: number = 100`. -/
def maxLogSize : Nat := 100

/-- Heap update helper: store `v` in cell `r`. -/
def heapSet (h : Nat → List (ModuleEvent π)) (r : Nat)
    (v : List (ModuleEvent π)) : Nat → List (ModuleEvent π) :=
  fun r₂ => if r₂ = r then v else h r₂

/-- The current subscriber set for an event type (empty when the type has
no entry in the map). -/
def subscribersOf (t : ModuleEventType) (bus : EventBus π) : List Nat :=
  (jsMapGet t bus.events).getD []

/-- `Set.add`: appends unless already present. -/
def addToSet (cb : Nat) (s : List Nat) : List Nat :=
  if cb ∈ s then s else s ++ [cb]

/-- `on(eventType, callback)`: ensures a set exists for `eventType` and
adds the callback to it. -/
def busOn (bus : EventBus π) (t : ModuleEventType) (cb : Nat) : EventBus π :=
  { bus with events := jsMapSet t (addToSet cb (subscribersOf t bus)) bus.events }

/-- The unsubscribe closure returned by `on`: removes the callback if
still present, pruning the set when it becomes empty. -/
def busUnsubscribe (bus : EventBus π) (t : ModuleEventType) (cb : Nat) :
    EventBus π :=
  match jsMapGet t bus.events with
  | none => bus
  | some s =>
    if cb ∈ s then
      let s₂ := s.erase cb
      if s₂ = [] then { bus with events := jsMapDelete t bus.events }
      else { bus with events := jsMapSet t s₂ bus.events }
    else bus

/-- Runtime value of the identifier `ModuleEventType` inside `onAll`.
`ModuleEventType` is declared as a TypeScript type alias (a union of
string literals); type aliases are erased during compilation and have no
runtime binding, so the name does not denote a value:
`Object.values(ModuleEventType)` is rejected by the compiler (TS2693) and
would throw a ReferenceError if the line ran as plain JavaScript. -/
def runtimeModuleEventTypeValue : Option (List ModuleEventType) := none

/-- `onAll(callback)`: iterates `Object.values(ModuleEventType)` and
subscribes the callback to each type, returning a composite unsubscribe.
The lookup of `ModuleEventType` as a runtime value fails (see
`runtimeModuleEventTypeValue`), so the call throws before subscribing to
anything. -/
def onAll (bus : EventBus π) (cb : Nat) : Except String (EventBus π) :=
  match runtimeModuleEventTypeValue with
  | none => .error "ReferenceError: ModuleEventType is not defined"
  | some allEventTypes =>
    .ok (allEventTypes.foldl (fun b t => busOn b t cb) bus)

/-- `private logEvent(event)`: `this.eventLog.push(event)` mutates the
current log cell; when the length exceeds `maxLogSize`,
`this.eventLog = this.eventLog.slice(length - maxLogSize)` rebinds the
field to a freshly allocated array holding the most recent entries. -/
def logEvent (bus : EventBus π) (e : ModuleEvent π) : EventBus π :=
  let contents := bus.heap bus.logRef ++ [e]
  let bus₂ := { bus with heap := heapSet bus.heap bus.logRef contents }
  if contents.length > maxLogSize then
    { bus₂ with
      heap := heapSet bus₂.heap bus₂.fresh
        (contents.drop (contents.length - maxLogSize))
      logRef := bus₂.fresh
      fresh := bus₂.fresh + 1 }
  else bus₂

/-- `getEventLog()`: `return [...this.eventLog]` copies the log into a
freshly allocated array and returns (a reference to) the copy. -/
def getEventLog (bus : EventBus π) : EventBus π × Nat :=
  ({ bus with
      heap := heapSet bus.heap bus.fresh (bus.heap bus.logRef)
      fresh := bus.fresh + 1 },
    bus.fresh)

/-- `emit(eventType, payload?, moduleId?, moduleType?)`: builds the event,
logs it, then synchronously invokes every current subscriber for the type
in insertion order, catching (and console-logging) any exception a
callback throws.  The second component records, in invocation order, each
callback invoked and whether it returned normally; `emit` itself always
returns normally. -/
def emit (env : Nat → ModuleEvent π → Except String Unit) (bus : EventBus π)
    (a : EmitArgs π) : EventBus π × List (Nat × Bool) :=
  let event := eventOfArgs a
  let bus₂ := logEvent bus event
  let trace :=
    match jsMapGet a.eventType bus₂.events with
    | none => []
    | some cbs =>
      cbs.map fun cb =>
        match env cb event with
        | .ok _ => (cb, true)
        | .error _ => (cb, false)
  (bus₂, trace)

/-- A sequence of `emit` calls, one per element of `items`. -/
def emitMany (env : Nat → ModuleEvent π → Except String Unit)
    (bus : EventBus π) (items : List (EmitArgs π)) : EventBus π :=
  items.foldl (fun b a => (emit env b a).1) bus

/-- Registering a list of callbacks on one event type, in order (the fold
of `on`). -/
def registerAll (bus : EventBus π) (t : ModuleEventType) (cbs : List Nat) :
    EventBus π :=
  cbs.foldl (fun b c => busOn b t c) bus

/-- The retained portion of a sequence of logged events: everything past
the first `length - maxLogSize` entries (the whole sequence when it is
within the bound, since the subtraction truncates at zero). -/
def logContents (es : List (ModuleEvent π)) : List (ModuleEvent π) :=
  es.drop (es.length - maxLogSize)

/-! ## Module registry (src/src/lib/modules/moduleRegistry.ts)

The registry is a singleton holding two JS Maps.  Its methods call
`eventBus.emit`; those calls are recorded as an emission trace in the
result rather than threading the bus state (the bus never throws back into
the registry, see `emit`).  ISO timestamps from `new Date().toISOString()`
enter as an explicit `now` argument. -/

/-- Payload of a registry emission: `registerModule` sends
`{ version: definition.version }`, `updateModuleConfig` sends the updated
config record. -/
inductive RegistryPayload where
  | versionInfo (version : String)
  | config (c : ModuleConfig)

/-- One `eventBus.emit(...)` call issued by a registry method. -/
structure RegistryEmit where
  eventType : ModuleEventType
  payload : Option RegistryPayload
  moduleId : Option String
  moduleType : Option String

/-- State of the `ModuleRegistry` class: the `modules` map (type →
definition) and the `instances` map (id → config). -/
structure ModuleRegistryState where
  modules : List (String × ModuleDefinition)
  instances : List (String × ModuleConfig)

/-- `getDefinition(type)`. -/
def getDefinition (st : ModuleRegistryState) (type : String) :
    Option ModuleDefinition :=
  jsMapGet type st.modules

/-- `getInstance(id)`. -/
def getInstance (st : ModuleRegistryState) (id : String) :
    Option ModuleConfig :=
  jsMapGet id st.instances

/-- `Partial<ModuleConfig>`: the `updates` argument of
`updateModuleConfig`, every field optional. -/
structure ModuleConfigUpdate where
  id : Option String := none
  type : Option String := none
  version : Option String := none
  position : Option ModulePosition := none
  size : Option ModuleSize := none
  settings : Option Settings := none
  createdAt : Option String := none
  updatedAt : Option String := none

/-- The object spread `{ ...existing, ...updates, updatedAt: now }`:
fields present in `updates` win over `existing`, and the literal
`updatedAt` property comes last, so it wins over any `updates.updatedAt`. -/
def spreadMerge (existing : ModuleConfig) (updates : ModuleConfigUpdate)
    (now : String) : ModuleConfig :=
  { id := updates.id.getD existing.id
    type := updates.type.getD existing.type
    version := updates.version.getD existing.version
    position := updates.position.getD existing.position
    size := updates.size.getD existing.size
    settings := updates.settings.getD existing.settings
    createdAt := updates.createdAt.getD existing.createdAt
    updatedAt := now }

/-- The merged record after the three reassignments
`updated.id = existing.id; updated.type = existing.type;
updated.createdAt = existing.createdAt`. -/
def mergeConfig (existing : ModuleConfig) (updates : ModuleConfigUpdate)
    (now : String) : ModuleConfig :=
  { spreadMerge existing updates now with
      id := existing.id
      type := existing.type
      createdAt := existing.createdAt }

/-- `private migrateModuleSettings(id, oldVersion, newVersion)`: looks the
instance up again, finds its definition, and if a `migrationStrategy`
exists applies it to the instance's (already merged) settings; on success
stores the migrated settings and the new version, on a thrown error
console-logs and returns `false`, leaving the stored instance as it was.
The `Bool` mirrors the method's return value. -/
def migrateModuleSettings (st : ModuleRegistryState) (id : String)
    (oldVersion newVersion : String) : ModuleRegistryState × Bool :=
  match jsMapGet id st.instances with
  | none => (st, false)
  | some inst =>
    match jsMapGet inst.type st.modules with
    | none => (st, false)
    | some defn =>
      match defn.migrationStrategy with
      | none => (st, false)
      | some strategy =>
        match strategy inst.settings oldVersion newVersion with
        | .ok migrated =>
          let inst₂ := { inst with settings := migrated, version := newVersion }
          ({ st with instances := jsMapSet id inst₂ st.instances }, true)
        | .error _ => (st, false)

/-- `updateModuleConfig(id, updates)`: merges, stores, then — when
`updates.version` is truthy and differs from the stored version — runs the
settings migration, and finally emits `module:settings-changed` with the
(stored, possibly migrated) record.  Returns the record the caller
receives (in the source this is the stored object itself, mutated in
place by a successful migration), the new registry state, and the
emission trace.  The function is total: no exception escapes to the
caller. -/
def updateModuleConfig (st : ModuleRegistryState) (id : String)
    (updates : ModuleConfigUpdate) (now : String) :
    Option ModuleConfig × ModuleRegistryState × List RegistryEmit :=
  match jsMapGet id st.instances with
  | none => (none, st, [])
  | some existing =>
    let updated := mergeConfig existing updates now
    let st₁ := { st with instances := jsMapSet id updated st.instances }
    let st₂ :=
      match updates.version with
      | some v =>
        if v ≠ "" ∧ v ≠ existing.version then
          (migrateModuleSettings st₁ id existing.version v).1
        else st₁
      | none => st₁
    let final := (jsMapGet id st₂.instances).getD updated
    (some final, st₂,
      [⟨.moduleSettingsChanged, some (.config final), some id, some existing.type⟩])

/-! ## Module atoms registry (src/unnamed/part_003, class ModuleAtomsRegistry)

Atom creators are opaque host functions registered per module type; the
embedding names each registered creator by a number.  Calling a creator
allocates a fresh bundle object, so bundles carry an allocation identity
drawn from a counter in the registry state. -/

/-- The object a creator invocation returns: its JS object identity
(`objId`, fresh per invocation), the creator that produced it, and the
`moduleId` argument the creator received. -/
structure AtomsBundle where
  objId : Nat
  creatorId : Nat
  moduleId : String
deriving DecidableEq, Repr

/-- State of the `ModuleAtomsRegistry` class: the `atomCreators` map
(type → creator) and the `moduleAtoms` cache (composite key → bundle),
plus the allocation counter for bundle identities. -/
structure ModuleAtomsRegistryState where
  atomCreators : List (String × Nat)
  moduleAtoms : List (String × AtomsBundle)
  freshObj : Nat
deriving DecidableEq, Repr

/-- The composite cache key: the template literal
`` `${moduleType}:${moduleId}` ``. -/
def atomKey (moduleType moduleId : String) : String :=
  moduleType ++ ":" ++ moduleId

/-- `registerAtomCreator(moduleType, creator)`: overwrites (with a console
warning) any creator already registered for the type. -/
def registerAtomCreator (st : ModuleAtomsRegistryState) (moduleType : String)
    (creator : Nat) : ModuleAtomsRegistryState :=
  { st with atomCreators := jsMapSet moduleType creator st.atomCreators }

/-- `getModuleAtoms(moduleType, moduleId)`: returns the cached bundle for
the composite key if present; otherwise invokes the registered creator
(throwing a descriptive error when none is registered for the type) and
caches the freshly created bundle. -/
def getModuleAtoms (st : ModuleAtomsRegistryState)
    (moduleType moduleId : String) :
    Except String (AtomsBundle × ModuleAtomsRegistryState) :=
  let key := atomKey moduleType moduleId
  match jsMapGet key st.moduleAtoms with
  | some b => .ok (b, st)
  | none =>
    match jsMapGet moduleType st.atomCreators with
    | none =>
      .error ("No atom creator registered for module type: " ++ moduleType)
    | some creator =>
      let b : AtomsBundle := ⟨st.freshObj, creator, moduleId⟩
      .ok (b, { st with
        moduleAtoms := jsMapSet key b st.moduleAtoms
        freshObj := st.freshObj + 1 })

/-- `hasModuleAtoms(moduleType, moduleId)`. -/
def hasModuleAtoms (st : ModuleAtomsRegistryState)
    (moduleType moduleId : String) : Bool :=
  jsMapHas (atomKey moduleType moduleId) st.moduleAtoms

/-- `removeModuleAtoms(moduleType, moduleId)`. -/
def removeModuleAtoms (st : ModuleAtomsRegistryState)
    (moduleType moduleId : String) : ModuleAtomsRegistryState :=
  { st with moduleAtoms := jsMapDelete (atomKey moduleType moduleId) st.moduleAtoms }

/-- `getRegisteredModuleTypes()`. -/
def getRegisteredModuleTypes (st : ModuleAtomsRegistryState) : List String :=
  st.atomCreators.map Prod.fst

/-- Well-formedness of an atoms-registry state, holding for every state
the API can reach: the cache keys are distinct (it embeds a JS `Map`), and
every cached bundle was allocated before the current counter value. -/
def AtomsInv (st : ModuleAtomsRegistryState) : Prop :=
  (st.moduleAtoms.map Prod.fst).Nodup ∧
  ∀ kb ∈ st.moduleAtoms, kb.2.objId < st.freshObj

/-! ## Module sandbox (src/src/lib/modules/moduleSandbox.ts)

Platform primitives (IndexedDB via idb-keyval, `fetch`, `Audio`,
`Notification`, the service worker channel) are external collaborators:
they appear as parameters, possible-failure flags, or effect traces.
Accessor operations that can throw are `Except`-valued; the recorded
traces (requests issued, audio elements created, messages posted) witness
which side effects a call performed. -/

/-- The shared underlying idb-keyval store, a flat string-keyed map (the
substrate is global; the sandbox performs the namespacing itself). -/
abbrev IdbStore (υ : Type) := List (String × υ)

/-- The key namespace of one sandbox: `` `module:${moduleId}:` ``. -/
def storageNamespaceOf (moduleId : String) : String :=
  "module:" ++ moduleId ++ ":"

/-- `storage.getItem(key)`: reads the namespaced key; a failing IndexedDB
transaction (`ioOk = false`) is caught, console-logged, and surfaced as
`null`.  An absent key is `none` as well (idb-keyval resolves to
`undefined`). -/
def storageGetItem (ioOk : Bool) (store : IdbStore υ) (moduleId key : String) :
    Option υ :=
  if ioOk then jsMapGet (storageNamespaceOf moduleId ++ key) store else none

/-- `storage.setItem(key, value)`: writes the namespaced key; a failing
transaction is caught and swallowed, leaving the store unchanged. -/
def storageSetItem (ioOk : Bool) (store : IdbStore υ) (moduleId key : String)
    (value : υ) : IdbStore υ :=
  if ioOk then jsMapSet (storageNamespaceOf moduleId ++ key) value store
  else store

/-- `storage.removeItem(key)`: same failure policy as `setItem`. -/
def storageRemoveItem (ioOk : Bool) (store : IdbStore υ)
    (moduleId key : String) : IdbStore υ :=
  if ioOk then jsMapDelete (storageNamespaceOf moduleId ++ key) store
  else store

/-- The `new URL(url, window.location.origin)` result, as resolved by the
host URL parser (an external collaborator). -/
structure UrlParts where
  hostname : String
  pathname : String
deriving DecidableEq, Repr

/-- The `RequestInit` options of a sandboxed fetch call (only the fields
the sandbox inspects or rewrites). -/
structure FetchOptions where
  method : Option String := none
  headers : List (String × String) := []
deriving DecidableEq, Repr

/-- A request as handed to the platform `fetch`: the target plus the
options with the identifying header appended. -/
structure IssuedRequest where
  url : UrlParts
  options : FetchOptions
deriving DecidableEq, Repr

/-- The host `String.prototype.toUpperCase()` (ASCII range, which covers
the HTTP method strings the sandbox classifies). -/
def jsToUpperCase (s : String) : String :=
  ⟨s.data.map Char.toUpper⟩

/-- `options.method?.toUpperCase() || 'GET'`: a missing or empty (falsy)
method defaults to `GET`. -/
def methodOf (options : FetchOptions) : String :=
  match options.method with
  | none => "GET"
  | some m => if jsToUpperCase m = "" then "GET" else jsToUpperCase m

/-- The fixed hostname blocklist of the sandboxed fetch. -/
def blockedDomains : List String :=
  ["localhost", "127.0.0.1", "internal.lythra.com"]

/-- The fixed blocked-path-namespace list of the sandboxed fetch. -/
def blockedPaths : List String :=
  ["/api/auth", "/api/admin", "/api/internal"]

/-- The part of the sandboxed fetch after the permission gate: blocklist
checks on hostname and path, header injection, and the platform call,
whose network-level failure is console-logged and rethrown. -/
def sandboxedFetchAfterPermission (moduleId : String)
    (net : IssuedRequest → Except String ρ) (url : UrlParts)
    (options : FetchOptions) : Except String ρ × List IssuedRequest :=
  if url.hostname ∈ blockedDomains then
    (.error ("Access to " ++ url.hostname ++ " is not allowed"), [])
  else if blockedPaths.any (fun p => url.pathname.startsWith p) then
    (.error ("Access to " ++ url.pathname ++ " is not allowed"), [])
  else
    let headers₂ := options.headers ++ [("X-Lythra-Module-ID", moduleId)]
    let req : IssuedRequest := ⟨url, { options with headers := headers₂ }⟩
    match net req with
    | .ok r => (.ok r, [req])
    | .error e => (.error e, [req])

/-- The function returned by `createSandboxedFetch(moduleId, permissions)`.
Read methods (`GET`/`HEAD`) require `network:read`, anything else requires
`network:write`; then the hostname and path blocklists are checked; only
then is the identifying header added and the platform `fetch` (`net`)
invoked.  The second component lists the requests actually handed to the
platform. -/
def sandboxedFetch (moduleId : String) (permissions : List ModulePermission)
    (net : IssuedRequest → Except String ρ) (url : UrlParts)
    (options : FetchOptions) : Except String ρ × List IssuedRequest :=
  let method := methodOf options
  if method = "GET" ∨ method = "HEAD" then
    if ModulePermission.networkRead ∈ permissions then
      sandboxedFetchAfterPermission moduleId net url options
    else
      (.error ("Module " ++ moduleId ++ " does not have network:read permission"), [])
  else
    if ModulePermission.networkWrite ∈ permissions then
      sandboxedFetchAfterPermission moduleId net url options
    else
      (.error ("Module " ++ moduleId ++ " does not have network:write permission"), [])

/-- An `HTMLAudioElement` created by `new Audio(source)`, carrying its JS
object identity. -/
structure AudioElement where
  objId : Nat
  src : String
  volume : Rat
  loop : Bool
deriving DecidableEq, Repr

/-- Per-sandbox audio state: the private `audioElements` map plus the
allocation counter for element identities. -/
structure AudioState where
  audioElements : List (String × AudioElement)
  freshObj : Nat
deriving DecidableEq, Repr

/-- The options object of `playSound`. -/
structure PlayOptions where
  volume : Option Rat := none
  loop : Option Bool := none
  id : Option String := none
deriving DecidableEq, Repr

/-- `options.id || generated`: a missing or empty (falsy) id yields the
generated `` `${moduleId}-audio-${Date.now()}` ``. -/
def soundIdOf (moduleId : String) (options : PlayOptions) (now : Nat) : String :=
  match options.id with
  | some i => if i = "" then moduleId ++ "-audio-" ++ toString now else i
  | none => moduleId ++ "-audio-" ++ toString now

/-- `audio.playSound(source, options)`: gated on `audio:play` before any
element is created.  On the permitted path it stops any element already
active under the id, creates a fresh element (volume defaulting to `1.0`,
loop to `false`), stores it in the map, and awaits `audio.play()`
(`playOk` stands for the platform outcome); a playback rejection deletes
the map entry and rethrows.  The `Nat` component counts the `Audio`
elements the call constructed.  The natural-end `ended` listener fires in
a later scheduling turn and is outside this synchronous model. -/
def playSound (moduleId : String) (permissions : List ModulePermission)
    (playOk : AudioElement → Except String Unit) (st : AudioState)
    (source : String) (options : PlayOptions) (now : Nat) :
    Except String String × AudioState × Nat :=
  if ModulePermission.audioPlay ∈ permissions then
    let id := soundIdOf moduleId options now
    let audio : AudioElement :=
      ⟨st.freshObj, source, options.volume.getD 1, options.loop.getD false⟩
    let st₂ : AudioState :=
      ⟨jsMapSet id audio st.audioElements, st.freshObj + 1⟩
    match playOk audio with
    | .ok _ => (.ok id, st₂, 1)
    | .error e => (.error e, ⟨jsMapDelete id st₂.audioElements, st₂.freshObj⟩, 1)
  else
    (.error ("Module " ++ moduleId ++ " does not have audio:play permission"), st, 0)

/-- `audio.stopSound(id)`: pauses, rewinds, and releases the handle; a
no-op for an unknown id. -/
def stopSound (st : AudioState) (id : String) : AudioState :=
  match jsMapGet id st.audioElements with
  | none => st
  | some _ => { st with audioElements := jsMapDelete id st.audioElements }

/-- `audio.stopAllSounds()`: pauses and releases every handle of this
sandbox. -/
def stopAllSounds (st : AudioState) : AudioState :=
  { st with audioElements := [] }

/-- `notifications.requestPermission()`: gated on `notifications:create`;
then `false` when the platform lacks `Notification`; otherwise the host
prompt (`platformResult`, which can itself reject) decides, a platform
error being caught and surfaced as `false`. -/
def requestNotificationPermission (moduleId : String)
    (permissions : List ModulePermission) (notifAvailable : Bool)
    (platformResult : Except String String) : Except String Bool :=
  if ModulePermission.notificationsCreate ∈ permissions then
    if notifAvailable then
      match platformResult with
      | .ok p => .ok (p = "granted")
      | .error _ => .ok false
    else .ok false
  else
    .error ("Module " ++ moduleId ++ " does not have notifications:create permission")

/-- `options.tag || generated`: a missing or empty (falsy) tag yields
`` `lythra-${moduleId}-${Date.now()}` ``. -/
def notificationTagOf (moduleId : String) (optTag : Option String) (now : Nat) :
    String :=
  match optTag with
  | some t => if t = "" then "lythra-" ++ moduleId ++ "-" ++ toString now else t
  | none => "lythra-" ++ moduleId ++ "-" ++ toString now

/-- `notifications.showNotification(title, options)`: gated on
`notifications:create`; `null` when the platform lacks `Notification`;
when platform permission (`currentPermission`) is not already `granted`,
first runs `requestPermission()` and returns `null` unless it grants;
otherwise tags the notification and constructs it (`ctorOk` standing for
the `new Notification` outcome, a constructor error being caught and
surfaced as `null`), returning the tag used. -/
def showNotification (moduleId : String)
    (permissions : List ModulePermission) (notifAvailable : Bool)
    (currentPermission : String) (platformResult : Except String String)
    (ctorOk : Bool) (optTag : Option String) (now : Nat) :
    Except String (Option String) :=
  if ModulePermission.notificationsCreate ∈ permissions then
    if notifAvailable then
      match
        (if currentPermission = "granted" then Except.ok true
         else requestNotificationPermission moduleId permissions notifAvailable
           platformResult) with
      | .error e => .error e
      | .ok granted =>
        if granted then
          let tag := notificationTagOf moduleId optTag now
          if ctorOk then .ok (some tag) else .ok none
        else .ok none
    else .ok none
  else
    .error ("Module " ++ moduleId ++ " does not have notifications:create permission")

/-- A `postMessage` sent to the service worker controller by
`closeNotification`. -/
structure CloseMessage where
  msgType : String
  tag : String
  moduleId : String
deriving DecidableEq, Repr

/-- `notifications.closeNotification(tag)`: posts a close message when a
service worker controller is available, and does nothing otherwise.  The
source performs no permission check here and has no throw path; the
`Except` shape matches the other accessor operations and is always `ok`. -/
def closeNotification (moduleId : String)
    (_permissions : List ModulePermission) (swAvailable : Bool) (tag : String) :
    Except String (List CloseMessage) :=
  if swAvailable then .ok [⟨"close-notification", tag, moduleId⟩] else .ok []

/-! ## Concrete states used to exercise the operations -/

/-- A migration strategy that always throws. -/
def exThrowingStrategy : Settings → String → String → Except String Settings :=
  fun _ _ _ => .error "migration failed"

/-- A `timer` definition at version 2.0.0 whose migration strategy throws. -/
def exTimerDefinition : ModuleDefinition :=
  { type := "timer"
    name := "Timer"
    description := "Countdown timer"
    version := "2.0.0"
    compatibleWith := ["1.0.0"]
    category := "productivity"
    defaultSize := ⟨2, 2⟩
    defaultSettings := [("duration", Json.num 60)]
    permissions := [.audioPlay]
    migrationStrategy := some exThrowingStrategy }

/-- An instance of `timer` still at settings version 1.0.0. -/
def exInstanceConfig : ModuleConfig :=
  { id := "inst-1"
    type := "timer"
    version := "1.0.0"
    position := ⟨0, 0⟩
    size := ⟨2, 2⟩
    settings := [("duration", Json.num 60)]
    createdAt := "2024-01-01T00:00:00.000Z"
    updatedAt := "2024-01-01T00:00:00.000Z" }

/-- A registry holding the `timer` definition and the `inst-1` instance. -/
def exRegistryState : ModuleRegistryState :=
  { modules := [("timer", exTimerDefinition)]
    instances := [("inst-1", exInstanceConfig)] }

/-- The update object `{ version: "2.0.0" }`. -/
def exVersionUpdate : ModuleConfigUpdate := { version := some "2.0.0" }

/-- The clock value during the update call. -/
def exNow : String := "2024-06-01T00:00:00.000Z"

/-- An empty atoms registry. -/
def exAtomsState₀ : ModuleAtomsRegistryState :=
  { atomCreators := [], moduleAtoms := [], freshObj := 0 }

/-- The atoms registry after `registerAtomCreator("a", creator 0)`. -/
def exAtomsState₁ : ModuleAtomsRegistryState :=
  registerAtomCreator exAtomsState₀ "a" 0

/-- The bundle `getModuleAtoms("a", "b:c")` creates in `exAtomsState₁`. -/
def exAliasBundle : AtomsBundle := ⟨0, 0, "b:c"⟩

/-- The atoms registry after `getModuleAtoms("a", "b:c")`: the bundle is
cached under the composite key `"a:b:c"`. -/
def exAtomsState₂ : ModuleAtomsRegistryState :=
  { atomCreators := [("a", 0)]
    moduleAtoms := [(atomKey "a" "b:c", exAliasBundle)]
    freshObj := 1 }

/-! ## Map lemmas -/

theorem jsMapGet_jsMapSet_self [DecidableEq κ] (k : κ) (v : α)
    (m : List (κ × α)) : jsMapGet k (jsMapSet k v m) = some v := by
  induction m with
  | nil => simp [jsMapGet, jsMapSet]
  | cons kv rest ih =>
    obtain ⟨k₂, v₂⟩ := kv
    by_cases h : k₂ = k <;> simp [jsMapGet, jsMapSet, h, ih]

theorem jsMapGet_jsMapSet_ne [DecidableEq κ] {k₁ k₂ : κ} (v : α)
    (m : List (κ × α)) (h : k₂ ≠ k₁) :
    jsMapGet k₁ (jsMapSet k₂ v m) = jsMapGet k₁ m := by
  induction m with
  | nil => simp [jsMapGet, jsMapSet, h]
  | cons kv rest ih =>
    obtain ⟨k₃, v₃⟩ := kv
    by_cases h₂ : k₃ = k₂
    · subst h₂; simp [jsMapGet, jsMapSet, h, Ne.symm h]
    · by_cases h₃ : k₃ = k₁ <;>
        simp [jsMapGet, jsMapSet, h₂, h₃, ih, Ne.symm h]

theorem jsMapGet_eq_none_of_not_mem [DecidableEq κ] {k : κ}
    {m : List (κ × α)} (h : k ∉ m.map Prod.fst) : jsMapGet k m = none := by
  induction m with
  | nil => rfl
  | cons kv rest ih =>
    obtain ⟨k₂, v₂⟩ := kv
    simp only [List.map_cons, List.mem_cons] at h
    push_neg at h
    have hne : ¬ k₂ = k := fun hc => h.1 hc.symm
    simp [jsMapGet, hne, ih h.2]

theorem jsMapGet_jsMapDelete_self [DecidableEq κ] {k : κ}
    {m : List (κ × α)} (hnd : (m.map Prod.fst).Nodup) :
    jsMapGet k (jsMapDelete k m) = none := by
  induction m with
  | nil => rfl
  | cons kv rest ih =>
    obtain ⟨k₂, v₂⟩ := kv
    simp only [List.map_cons, List.nodup_cons] at hnd
    by_cases h₂ : k₂ = k
    · subst h₂
      simpa [jsMapDelete] using jsMapGet_eq_none_of_not_mem hnd.1
    · simp [jsMapDelete, jsMapGet, h₂, ih hnd.2]

theorem mem_keys_jsMapSet [DecidableEq κ] {kt kq : κ} {v : α}
    {m : List (κ × α)} (h : kq ∈ (jsMapSet kt v m).map Prod.fst) :
    kq = kt ∨ kq ∈ m.map Prod.fst := by
  induction m with
  | nil =>
    simp only [jsMapSet, List.map_cons, List.map_nil, List.mem_singleton] at h
    exact Or.inl h
  | cons kv rest ih =>
    obtain ⟨k₃, v₃⟩ := kv
    by_cases h₃ : k₃ = kt
    · subst h₃
      rw [show jsMapSet k₃ v ((k₃, v₃) :: rest) = (k₃, v) :: rest by
        simp [jsMapSet]] at h
      simp only [List.map_cons, List.mem_cons] at h
      rcases h with h | h
      · exact Or.inl h
      · exact Or.inr (List.mem_cons_of_mem _ h)
    · rw [show jsMapSet kt v ((k₃, v₃) :: rest) =
        (k₃, v₃) :: jsMapSet kt v rest by simp [jsMapSet, h₃]] at h
      simp only [List.map_cons, List.mem_cons] at h
      rcases h with h | h
      · exact Or.inr (by simp [h])
      · rcases ih h with h | h
        · exact Or.inl h
        · exact Or.inr (List.mem_cons_of_mem _ h)

theorem nodupKeys_jsMapSet [DecidableEq κ] (k : κ) (v : α)
    {m : List (κ × α)} (hnd : (m.map Prod.fst).Nodup) :
    ((jsMapSet k v m).map Prod.fst).Nodup := by
  induction m with
  | nil => simp [jsMapSet]
  | cons kv rest ih =>
    obtain ⟨k₂, v₂⟩ := kv
    simp only [List.map_cons, List.nodup_cons] at hnd
    by_cases h₂ : k₂ = k
    · subst h₂; simpa [jsMapSet] using hnd
    · have hmem : k₂ ∉ (jsMapSet k v rest).map Prod.fst := by
        intro hc
        rcases mem_keys_jsMapSet hc with h | h
        · exact h₂ h
        · exact hnd.1 h
      simp only [jsMapSet, h₂, if_false, List.map_cons, List.nodup_cons]
      exact ⟨hmem, ih hnd.2⟩

/-! ## String lemmas for namespace and composite-key isolation -/

theorem string_ext {s t : String} (h : s.data = t.data) : s = t := by
  cases s; cases t; exact congrArg String.mk h

theorem string_append_data (s t : String) :
    (s ++ t).data = s.data ++ t.data := String.data_append s t

/-- Two colon-free lists followed by a colon-headed tail determine each
other: the first colon splits the concatenation unambiguously. -/
theorem sep_split_unique {xs ys as bs : List Char}
    (hx : ':' ∉ xs) (hy : ':' ∉ ys)
    (h : xs ++ ':' :: as = ys ++ ':' :: bs) : xs = ys ∧ as = bs := by
  induction xs generalizing ys with
  | nil =>
    cases ys with
    | nil => simpa using h
    | cons y ys₂ =>
      simp only [List.nil_append, List.cons_append, List.cons.injEq] at h
      rw [← h.1] at hy
      exact absurd (List.mem_cons_self _ _) hy
  | cons x xs₂ ih =>
    cases ys with
    | nil =>
      simp only [List.cons_append, List.nil_append, List.cons.injEq] at h
      rw [h.1] at hx
      exact absurd (List.mem_cons_self _ _) hx
    | cons y ys₂ =>
      simp only [List.cons_append, List.cons.injEq] at h
      obtain ⟨hxy, h₂⟩ := h
      have hr := ih (fun hm => hx (List.mem_cons_of_mem _ hm))
        (fun hm => hy (List.mem_cons_of_mem _ hm)) h₂
      exact ⟨by rw [hxy, hr.1], hr.2⟩

/-- `atomKey` is injective on pairs whose type components avoid the `':'`
separator. -/
theorem atomKey_injective_of_sep_free {t₁ i₁ t₂ i₂ : String}
    (ht₁ : ':' ∉ t₁.data) (ht₂ : ':' ∉ t₂.data)
    (h : atomKey t₁ i₁ = atomKey t₂ i₂) : t₁ = t₂ ∧ i₁ = i₂ := by
  have hcolon : (":" : String).data = [':'] := rfl
  have hd := congrArg String.data h
  simp only [atomKey, string_append_data, List.append_assoc, hcolon,
    List.singleton_append] at hd
  obtain ⟨h₁, h₂⟩ := sep_split_unique ht₁ ht₂ hd
  exact ⟨string_ext h₁, string_ext h₂⟩

/-- For a fixed storage key, distinct module ids produce distinct
underlying idb keys: `module:` ++ a ++ `:` ++ k determines `a`. -/
theorem storage_key_injective {a b key : String} (h : a ≠ b) :
    storageNamespaceOf a ++ key ≠ storageNamespaceOf b ++ key := by
  intro hc
  apply h
  apply string_ext
  have hd := congrArg String.data hc
  simp only [storageNamespaceOf, string_append_data, List.append_assoc] at hd
  have hd₂ := List.append_cancel_left hd
  exact List.append_cancel_right hd₂

/-! ## Registry lemmas and claims C5, C1 -/

theorem migrateModuleSettings_preserves_fields (st : ModuleRegistryState)
    (id oldV newV : String) (inst : ModuleConfig)
    (h : jsMapGet id st.instances = some inst) :
    ∃ inst₂, jsMapGet id (migrateModuleSettings st id oldV newV).1.instances
        = some inst₂ ∧
      inst₂.id = inst.id ∧ inst₂.type = inst.type ∧
      inst₂.createdAt = inst.createdAt ∧ inst₂.updatedAt = inst.updatedAt := by
  unfold migrateModuleSettings
  rw [h]
  dsimp only
  cases hd : jsMapGet inst.type st.modules with
  | none => exact ⟨inst, h, rfl, rfl, rfl, rfl⟩
  | some defn =>
    dsimp only
    cases hs : defn.migrationStrategy with
    | none => exact ⟨inst, h, rfl, rfl, rfl, rfl⟩
    | some strategy =>
      dsimp only
      cases hr : strategy inst.settings oldV newV with
      | error e => exact ⟨inst, h, rfl, rfl, rfl, rfl⟩
      | ok migrated =>
        exact ⟨{ inst with settings := migrated, version := newV },
          jsMapGet_jsMapSet_self id _ st.instances, rfl, rfl, rfl, rfl⟩

/-- Claim C5 (confirmed): for every existing instance id and every updates
object, the record `updateInstance` returns and stores keeps the
pre-update `id`, `type`, and `createdAt` — whatever fields `updates`
carries, including attempts to overwrite those three — while `updatedAt`
is refreshed to the time of the call. -/
theorem updateModuleConfig_preserves_identity (st : ModuleRegistryState)
    (id : String) (updates : ModuleConfigUpdate) (now : String)
    (existing : ModuleConfig) (h : jsMapGet id st.instances = some existing) :
    ∃ final, (updateModuleConfig st id updates now).1 = some final ∧
      jsMapGet id (updateModuleConfig st id updates now).2.1.instances
        = some final ∧
      final.id = existing.id ∧ final.type = existing.type ∧
      final.createdAt = existing.createdAt ∧ final.updatedAt = now := by
  have hupd : jsMapGet id (jsMapSet id (mergeConfig existing updates now)
      st.instances) = some (mergeConfig existing updates now) :=
    jsMapGet_jsMapSet_self id _ st.instances
  unfold updateModuleConfig
  rw [h]
  dsimp only
  cases hv : updates.version with
  | none =>
    exact ⟨mergeConfig existing updates now,
      by rw [hupd, Option.getD_some], by rw [hupd], rfl, rfl, rfl, rfl⟩
  | some v =>
    dsimp only
    by_cases hg : v ≠ "" ∧ v ≠ existing.version
    · rw [if_pos hg]
      obtain ⟨inst₂, hget, h₁, h₂, h₃, h₄⟩ :=
        migrateModuleSettings_preserves_fields
          (⟨st.modules, jsMapSet id (mergeConfig existing updates now)
            st.instances⟩ : ModuleRegistryState)
          id existing.version v (mergeConfig existing updates now) hupd
      exact ⟨inst₂, by rw [hget, Option.getD_some], by rw [hget],
        h₁.trans rfl, h₂.trans rfl, h₃.trans rfl, h₄.trans rfl⟩
    · rw [if_neg hg]
      exact ⟨mergeConfig existing updates now,
        by rw [hupd, Option.getD_some], by rw [hupd], rfl, rfl, rfl, rfl⟩

/-- Claim C5 witness: the identity-field preservation theorem applied to the
concrete registry, with an update that tries to overwrite `id`, `type`,
and `createdAt`. -/
theorem updateModuleConfig_preserves_identity_witness :
    jsMapGet "inst-1" exRegistryState.instances = some exInstanceConfig ∧
    ∃ final,
      (updateModuleConfig exRegistryState "inst-1"
        { id := some "evil", type := some "other",
          createdAt := some "1999-01-01T00:00:00.000Z" } exNow).1 = some final ∧
      jsMapGet "inst-1" (updateModuleConfig exRegistryState "inst-1"
        { id := some "evil", type := some "other",
          createdAt := some "1999-01-01T00:00:00.000Z" } exNow).2.1.instances
        = some final ∧
      final.id = exInstanceConfig.id ∧ final.type = exInstanceConfig.type ∧
      final.createdAt = exInstanceConfig.createdAt ∧ final.updatedAt = exNow :=
  ⟨rfl, updateModuleConfig_preserves_identity exRegistryState "inst-1"
    { id := some "evil", type := some "other",
      createdAt := some "1999-01-01T00:00:00.000Z" } exNow exInstanceConfig rfl⟩

/-- Claim C1 counterexample: with the `timer` definition whose migration
strategy throws, `updateInstance("inst-1", {version: "2.0.0"})` leaves the
stored instance at version `"2.0.0"`, not at its prior `"1.0.0"` — the
merge applies `updates.version` before migration runs and the caught
migration failure does not roll it back, so the claim that the instance
keeps the same version is false on this input. -/
theorem updateModuleConfig_failed_migration_counterexample :
    (jsMapGet "inst-1" (updateModuleConfig exRegistryState "inst-1"
        exVersionUpdate exNow).2.1.instances).map ModuleConfig.version
      = some "2.0.0" ∧
    exInstanceConfig.version = "1.0.0" ∧ ("2.0.0" : String) ≠ "1.0.0" :=
  ⟨rfl, rfl, by decide⟩

/-- Claim C1 (corrected): when `updates.version` differs from the stored version
and the definition's `migrationStrategy` throws, `updateInstance` still
returns normally (no exception escapes) and the stored record is exactly
the merged record: its settings are those of the merge — the prior
settings whenever `updates` carries no settings field — but its `version`
is `updates.version`, not the prior version. -/
theorem updateModuleConfig_failed_migration (st : ModuleRegistryState)
    (id : String) (updates : ModuleConfigUpdate) (now : String)
    (existing : ModuleConfig) (defn : ModuleDefinition)
    (strategy : Settings → String → String → Except String Settings)
    (v e : String)
    (hinst : jsMapGet id st.instances = some existing)
    (hv : updates.version = some v) (hne : v ≠ "")
    (hnv : v ≠ existing.version)
    (hdef : jsMapGet existing.type st.modules = some defn)
    (hstrat : defn.migrationStrategy = some strategy)
    (hthrow : strategy (updates.settings.getD existing.settings)
      existing.version v = .error e) :
    (updateModuleConfig st id updates now).1
        = some (mergeConfig existing updates now) ∧
    jsMapGet id (updateModuleConfig st id updates now).2.1.instances
        = some (mergeConfig existing updates now) ∧
    (mergeConfig existing updates now).version = v ∧
    (mergeConfig existing updates now).settings
        = updates.settings.getD existing.settings := by
  have hupd : jsMapGet id (jsMapSet id (mergeConfig existing updates now)
      st.instances) = some (mergeConfig existing updates now) :=
    jsMapGet_jsMapSet_self id _ st.instances
  have hmig : migrateModuleSettings
      (⟨st.modules, jsMapSet id (mergeConfig existing updates now)
        st.instances⟩ : ModuleRegistryState) id existing.version v
      = ((⟨st.modules, jsMapSet id (mergeConfig existing updates now)
        st.instances⟩ : ModuleRegistryState), false) := by
    unfold migrateModuleSettings
    dsimp only
    rw [hupd]
    dsimp only
    have htype : (mergeConfig existing updates now).type = existing.type := rfl
    rw [htype, hdef]
    dsimp only
    rw [hstrat]
    dsimp only
    have hset : (mergeConfig existing updates now).settings
        = updates.settings.getD existing.settings := rfl
    rw [hset, hthrow]
  unfold updateModuleConfig
  rw [hinst]
  dsimp only
  rw [hv]
  dsimp only
  rw [if_pos ⟨hne, hnv⟩, hmig]
  exact ⟨by rw [hupd, Option.getD_some], by rw [hupd], by rw [show (mergeConfig
    existing updates now).version = updates.version.getD existing.version from
    rfl, hv, Option.getD_some], rfl⟩

/-- Claim C1 witness: the corrected migration-failure theorem applied to the
concrete registry whose `timer` migration strategy always throws. -/
theorem updateModuleConfig_failed_migration_witness :
    jsMapGet "inst-1" exRegistryState.instances = some exInstanceConfig ∧
    exVersionUpdate.version = some "2.0.0" ∧ ("2.0.0" : String) ≠ "" ∧
    ("2.0.0" : String) ≠ exInstanceConfig.version ∧
    jsMapGet exInstanceConfig.type exRegistryState.modules
      = some exTimerDefinition ∧
    exTimerDefinition.migrationStrategy = some exThrowingStrategy ∧
    exThrowingStrategy (exVersionUpdate.settings.getD exInstanceConfig.settings)
      exInstanceConfig.version "2.0.0" = .error "migration failed" ∧
    ((updateModuleConfig exRegistryState "inst-1" exVersionUpdate exNow).1
        = some (mergeConfig exInstanceConfig exVersionUpdate exNow) ∧
      jsMapGet "inst-1" (updateModuleConfig exRegistryState "inst-1"
          exVersionUpdate exNow).2.1.instances
        = some (mergeConfig exInstanceConfig exVersionUpdate exNow) ∧
      (mergeConfig exInstanceConfig exVersionUpdate exNow).version = "2.0.0" ∧
      (mergeConfig exInstanceConfig exVersionUpdate exNow).settings
        = exVersionUpdate.settings.getD exInstanceConfig.settings) :=
  ⟨rfl, rfl, by decide, by decide, rfl, rfl, rfl,
    updateModuleConfig_failed_migration exRegistryState "inst-1"
      exVersionUpdate exNow exInstanceConfig exTimerDefinition
      exThrowingStrategy "2.0.0" "migration failed"
      rfl rfl (by decide) (by decide) rfl rfl rfl⟩

/-! ## Claim C8: storage namespace isolation -/

/-- Claim C8 (confirmed): sandbox storage is namespaced by the instance id, so
for distinct instance ids `a ≠ b`, a `setItem` performed through sandbox
`a` is invisible through sandbox `b`: reading any key through `b` is
unchanged by the write, and in particular yields `none` whenever `b`'s
namespaced slot was empty — never the value `a` stored. -/
theorem storage_namespace_isolation {υ : Type} (store : IdbStore υ)
    (a b key : String) (v : υ) (okS okG : Bool) (hab : a ≠ b) :
    storageGetItem okG (storageSetItem okS store a key v) b key
        = storageGetItem okG store b key ∧
    (storageGetItem okG store b key = none →
      storageGetItem okG (storageSetItem okS store a key v) b key = none) := by
  have hframe : storageGetItem okG (storageSetItem okS store a key v) b key
      = storageGetItem okG store b key := by
    unfold storageGetItem storageSetItem
    cases okS with
    | false => simp
    | true =>
      cases okG with
      | false => simp
      | true =>
        simp only [if_true]
        exact jsMapGet_jsMapSet_ne v store (storage_key_injective hab)
  exact ⟨hframe, fun h₀ => hframe.trans h₀⟩

/-- Claim C8 witness: the isolation theorem applied to instances `"inst-1"` and
`"inst-2"` over an initially empty store. -/
theorem storage_namespace_isolation_witness :
    ("inst-1" : String) ≠ "inst-2" ∧
    (storageGetItem true
        (storageSetItem true ([] : IdbStore Nat) "inst-1" "theme" 7)
        "inst-2" "theme"
      = storageGetItem true ([] : IdbStore Nat) "inst-2" "theme" ∧
    (storageGetItem true ([] : IdbStore Nat) "inst-2" "theme" = none →
      storageGetItem true
          (storageSetItem true ([] : IdbStore Nat) "inst-1" "theme" 7)
          "inst-2" "theme" = none)) :=
  ⟨by decide,
    storage_namespace_isolation ([] : IdbStore Nat) "inst-1" "inst-2" "theme"
      7 true true (by decide)⟩

/-! ## Claim C9: notifications permission gate -/

/-- Claim C9 counterexample: with an empty permission set and a service worker
controller available, `closeNotification` performs its dismissal post
without any permission check and returns normally — it does not fail with
a permission error as the claim requires of every notifications
operation. -/
theorem closeNotification_no_permission_gate_counterexample :
    closeNotification "inst-1" [] true "tag-1"
      = .ok [⟨"close-notification", "tag-1", "inst-1"⟩] := rfl

/-- Claim C9 (corrected): when `notifications:create` is absent,
`requestPermission` and `showNotification` fail immediately with a
permission error, but `closeNotification` performs no permission check:
it is a best-effort dismissal that never throws. -/
theorem notifications_permission_gate (moduleId : String)
    (permissions : List ModulePermission) (notifAvailable : Bool)
    (currentPermission : String) (platformResult : Except String String)
    (ctorOk : Bool) (optTag : Option String) (now : Nat)
    (swAvailable : Bool) (closeTag : String)
    (hp : ModulePermission.notificationsCreate ∉ permissions) :
    requestNotificationPermission moduleId permissions notifAvailable
        platformResult
      = .error ("Module " ++ moduleId ++
          " does not have notifications:create permission") ∧
    showNotification moduleId permissions notifAvailable currentPermission
        platformResult ctorOk optTag now
      = .error ("Module " ++ moduleId ++
          " does not have notifications:create permission") ∧
    ∃ msgs, closeNotification moduleId permissions swAvailable closeTag
      = .ok msgs := by
  refine ⟨?_, ?_, ?_⟩
  · unfold requestNotificationPermission
    rw [if_neg hp]
  · unfold showNotification
    rw [if_neg hp]
  · unfold closeNotification
    cases swAvailable with
    | false => exact ⟨[], rfl⟩
    | true => exact ⟨[⟨"close-notification", closeTag, moduleId⟩], rfl⟩

/-- Claim C9 witness: the permission-gate theorem applied to a sandbox with an
empty permission set. -/
theorem notifications_permission_gate_witness :
    ModulePermission.notificationsCreate ∉ ([] : List ModulePermission) ∧
    (requestNotificationPermission "inst-1" [] true (.ok "granted")
      = .error "Module inst-1 does not have notifications:create permission" ∧
    showNotification "inst-1" [] true "granted" (.ok "granted") true none 0
      = .error "Module inst-1 does not have notifications:create permission" ∧
    ∃ msgs, closeNotification "inst-1" [] true "tag-2" = .ok msgs) :=
  ⟨by decide,
    notifications_permission_gate "inst-1" [] true "granted" (.ok "granted")
      true none 0 true "tag-2" (by decide)⟩

/-! ## Claim C3: sandbox permission gate fails before side effects -/

/-- Claim C3 (confirmed): every sandbox accessor operation requiring a
permission absent from the sandbox's permission set fails immediately with
a descriptive error and performs no side effect: a `GET`/`HEAD` fetch
without `network:read` and any other-method fetch without `network:write`
throw with an empty issued-request trace (no network I/O), and
`playSound` without `audio:play` throws with the active-handle map
unchanged and zero audio elements created (in particular an empty map
stays empty, as in the spec's Scenario B). -/
theorem sandbox_permission_gate {ρ : Type} (moduleId : String)
    (permissions : List ModulePermission) (net : IssuedRequest → Except String ρ)
    (url : UrlParts) (options : FetchOptions)
    (playResult : AudioElement → Except String Unit) (st : AudioState)
    (source : String) (playOptions : PlayOptions) (now : Nat) :
    ((methodOf options = "GET" ∨ methodOf options = "HEAD") →
      ModulePermission.networkRead ∉ permissions →
      sandboxedFetch moduleId permissions net url options
        = (.error ("Module " ++ moduleId ++
            " does not have network:read permission"), [])) ∧
    ((methodOf options ≠ "GET" ∧ methodOf options ≠ "HEAD") →
      ModulePermission.networkWrite ∉ permissions →
      sandboxedFetch moduleId permissions net url options
        = (.error ("Module " ++ moduleId ++
            " does not have network:write permission"), [])) ∧
    (ModulePermission.audioPlay ∉ permissions →
      playSound moduleId permissions playResult st source playOptions now
        = (.error ("Module " ++ moduleId ++
            " does not have audio:play permission"), st, 0)) := by
  refine ⟨?_, ?_, ?_⟩
  · intro hm hp
    unfold sandboxedFetch
    rw [if_pos hm, if_neg hp]
  · intro hm hp
    unfold sandboxedFetch
    rw [if_neg (by rw [not_or]; exact hm), if_neg hp]
  · intro hp
    unfold playSound
    rw [if_neg hp]

/-- Claim C3 witness: the permission-gate theorem applied to a sandbox built
with an empty permission set — a `GET` fetch, a `POST` fetch, and Scenario
B's `playSound("x.mp3")` on an empty active-handle map all fail with no
request issued, no element created, and the map still empty. -/
theorem sandbox_permission_gate_witness :
    ((methodOf { method := none } = "GET" ∨
        methodOf { method := none } = "HEAD") ∧
      ModulePermission.networkRead ∉ ([] : List ModulePermission) ∧
      sandboxedFetch "inst-1" [] (fun _ => (.ok 0 : Except String Nat))
          ⟨"api.example.com", "/data"⟩ { method := none }
        = (.error "Module inst-1 does not have network:read permission", [])) ∧
    ((methodOf { method := some "POST" } ≠ "GET" ∧
        methodOf { method := some "POST" } ≠ "HEAD") ∧
      ModulePermission.networkWrite ∉ ([] : List ModulePermission) ∧
      sandboxedFetch "inst-1" [] (fun _ => (.ok 0 : Except String Nat))
          ⟨"api.example.com", "/data"⟩ { method := some "POST" }
        = (.error "Module inst-1 does not have network:write permission", [])) ∧
    (ModulePermission.audioPlay ∉ ([] : List ModulePermission) ∧
      playSound "inst-1" [] (fun _ => .ok ()) ⟨[], 0⟩ "x.mp3" {} 0
        = (.error "Module inst-1 does not have audio:play permission",
            ⟨[], 0⟩, 0)) :=
  ⟨⟨by decide, by decide,
      (sandbox_permission_gate "inst-1" [] (fun _ => (.ok 0 : Except String Nat))
        ⟨"api.example.com", "/data"⟩ { method := none } (fun _ => .ok ())
        ⟨[], 0⟩ "x.mp3" {} 0).1 (by decide) (by decide)⟩,
    ⟨by decide, by decide,
      (sandbox_permission_gate "inst-1" [] (fun _ => (.ok 0 : Except String Nat))
        ⟨"api.example.com", "/data"⟩ { method := some "POST" } (fun _ => .ok ())
        ⟨[], 0⟩ "x.mp3" {} 0).2.1 (by decide) (by decide)⟩,
    ⟨by decide,
      (sandbox_permission_gate "inst-1" [] (fun _ => (.ok 0 : Except String Nat))
        ⟨"api.example.com", "/data"⟩ { method := none } (fun _ => .ok ())
        ⟨[], 0⟩ "x.mp3" {} 0).2.2 (by decide)⟩⟩

/-! ## Claims C6 and C10: atoms registry -/

theorem jsMapGet_mem [DecidableEq κ] {k : κ} {v : α} {m : List (κ × α)}
    (h : jsMapGet k m = some v) : (k, v) ∈ m := by
  induction m with
  | nil => exact absurd h (by simp [jsMapGet])
  | cons kv rest ih =>
    obtain ⟨k₂, v₂⟩ := kv
    by_cases h₂ : k₂ = k
    · subst h₂
      rw [show jsMapGet k₂ ((k₂, v₂) :: rest) = some v₂ by simp [jsMapGet]] at h
      exact (Option.some.injEq _ _ ▸ h) ▸ List.mem_cons_self _ _
    · rw [show jsMapGet k ((k₂, v₂) :: rest) = jsMapGet k rest by
        simp [jsMapGet, h₂]] at h
      exact List.mem_cons_of_mem _ (ih h)

/-- Claim C6 (corrected): for a well-formed atoms registry, (a) repeated
`getOrCreate` calls for a pair return the identical cached bundle and
leave the state unchanged (the creator is invoked at most once); (b) after
`remove`, the next `getOrCreate` (with a creator registered for the type)
returns a freshly allocated bundle distinct from the previous one; and (c)
`getOrCreate` for a type with no registered creator throws the descriptive
error — provided no bundle is already cached under the pair's composite
key, since a cached bundle under a colliding key is returned without
consulting the creators at all. -/
theorem atoms_singleton (st : ModuleAtomsRegistryState) (t i : String)
    (hinv : AtomsInv st) :
    (∀ b st₁, getModuleAtoms st t i = .ok (b, st₁) →
      getModuleAtoms st₁ t i = .ok (b, st₁)) ∧
    (∀ c b st₁, jsMapGet t st.atomCreators = some c →
      getModuleAtoms st t i = .ok (b, st₁) →
      ∃ st₂, getModuleAtoms (removeModuleAtoms st₁ t i) t i
          = .ok (⟨st₁.freshObj, c, i⟩, st₂) ∧
        (⟨st₁.freshObj, c, i⟩ : AtomsBundle) ≠ b) ∧
    (jsMapGet t st.atomCreators = none →
      jsMapGet (atomKey t i) st.moduleAtoms = none →
      getModuleAtoms st t i
        = .error ("No atom creator registered for module type: " ++ t)) := by
  refine ⟨?_, ?_, ?_⟩
  · intro b st₁ h
    unfold getModuleAtoms at h ⊢
    dsimp only at h ⊢
    cases hcache : jsMapGet (atomKey t i) st.moduleAtoms with
    | some b₀ =>
      rw [hcache] at h
      obtain ⟨hb, hst⟩ := Prod.mk.injEq .. ▸ Except.ok.injEq .. ▸ h
      rw [← hst, hcache, hb]
    | none =>
      rw [hcache] at h
      cases hc : jsMapGet t st.atomCreators with
      | none => rw [hc] at h; exact absurd h (by simp)
      | some c =>
        rw [hc] at h
        dsimp only at h
        obtain ⟨hb, hst⟩ := Prod.mk.injEq .. ▸ Except.ok.injEq .. ▸ h
        rw [← hst]
        dsimp only
        rw [jsMapGet_jsMapSet_self (atomKey t i) _ st.moduleAtoms, hb]
  · intro c b st₁ hc h
    unfold getModuleAtoms at h
    dsimp only at h
    have hnodup₁ : (st₁.moduleAtoms.map Prod.fst).Nodup ∧
        st₁.atomCreators = st.atomCreators ∧ b.objId < st₁.freshObj := by
      cases hcache : jsMapGet (atomKey t i) st.moduleAtoms with
      | some b₀ =>
        rw [hcache] at h
        obtain ⟨hb, hst⟩ := Prod.mk.injEq .. ▸ Except.ok.injEq .. ▸ h
        rw [← hst]
        exact ⟨hinv.1, rfl, hb ▸ hinv.2 _ (jsMapGet_mem hcache)⟩
      | none =>
        rw [hcache, hc] at h
        dsimp only at h
        obtain ⟨hb, hst⟩ := Prod.mk.injEq .. ▸ Except.ok.injEq .. ▸ h
        rw [← hst, ← hb]
        exact ⟨nodupKeys_jsMapSet _ _ hinv.1, rfl, Nat.lt_succ_self _⟩
    have hgone : jsMapGet (atomKey t i)
        (removeModuleAtoms st₁ t i).moduleAtoms = none :=
      jsMapGet_jsMapDelete_self hnodup₁.1
    refine ⟨⟨(removeModuleAtoms st₁ t i).atomCreators,
        jsMapSet (atomKey t i) ⟨st₁.freshObj, c, i⟩
          (removeModuleAtoms st₁ t i).moduleAtoms,
        st₁.freshObj + 1⟩, ?_, ?_⟩
    · unfold getModuleAtoms
      dsimp only
      rw [hgone]
      have hc₁ : jsMapGet t (removeModuleAtoms st₁ t i).atomCreators = some c := by
        rw [show (removeModuleAtoms st₁ t i).atomCreators = st₁.atomCreators
          from rfl, hnodup₁.2.1, hc]
      rw [hc₁]
      rfl
    · intro hcontra
      have : b.objId = st₁.freshObj := by rw [← hcontra]
      exact absurd (this ▸ hnodup₁.2.2) (Nat.lt_irrefl _)
  · intro hc hcache
    unfold getModuleAtoms
    dsimp only
    rw [hcache, hc]

/-- Claim C6 witness: the (corrected) singleton theorem applied to a registry
holding one creator for type `"timer"` and an empty cache. -/
theorem atoms_singleton_witness :
    AtomsInv ⟨[("timer", 5)], [], 0⟩ ∧
    ((∀ b st₁,
        getModuleAtoms ⟨[("timer", 5)], [], 0⟩ "timer" "w1" = .ok (b, st₁) →
        getModuleAtoms st₁ "timer" "w1" = .ok (b, st₁)) ∧
      (∀ c b st₁, jsMapGet "timer" (⟨[("timer", 5)], [], 0⟩ :
          ModuleAtomsRegistryState).atomCreators = some c →
        getModuleAtoms ⟨[("timer", 5)], [], 0⟩ "timer" "w1" = .ok (b, st₁) →
        ∃ st₂, getModuleAtoms (removeModuleAtoms st₁ "timer" "w1") "timer" "w1"
            = .ok (⟨st₁.freshObj, c, "w1"⟩, st₂) ∧
          (⟨st₁.freshObj, c, "w1"⟩ : AtomsBundle) ≠ b) ∧
      (jsMapGet "timer" (⟨[("timer", 5)], [], 0⟩ :
          ModuleAtomsRegistryState).atomCreators = none →
        jsMapGet (atomKey "timer" "w1") (⟨[("timer", 5)], [], 0⟩ :
          ModuleAtomsRegistryState).moduleAtoms = none →
        getModuleAtoms ⟨[("timer", 5)], [], 0⟩ "timer" "w1"
          = .error ("No atom creator registered for module type: " ++ "timer"))) :=
  ⟨⟨by decide, by decide⟩,
    atoms_singleton ⟨[("timer", 5)], [], 0⟩ "timer" "w1" ⟨by decide, by decide⟩⟩

/-- Claim C6 counterexample: after `registerAtomCreator("a", ·)` and
`getModuleAtoms("a", "b:c")`, the call `getModuleAtoms("a:b", "c")` — a
pair whose type `"a:b"` has **no** registered creator — does not throw:
the composite keys collide (`"a:b:c"`), so the aliased cached bundle is
returned, refuting the claim that `getOrCreate` for a type with no
registered creator always throws. -/
theorem atoms_no_creator_no_throw_counterexample :
    getModuleAtoms exAtomsState₁ "a" "b:c" = .ok (exAliasBundle, exAtomsState₂) ∧
    jsMapGet "a:b" exAtomsState₂.atomCreators = none ∧
    getModuleAtoms exAtomsState₂ "a:b" "c" = .ok (exAliasBundle, exAtomsState₂) :=
  ⟨rfl, rfl, rfl⟩

/-- Claim C10 (confirmed): the atoms cache key is the concatenation
`moduleType + ":" + instanceId`, so the distinct pairs `("a", "b:c")` and
`("a:b", "c")` share the key `"a:b:c"`: `getOrCreate` on the second pair
returns the identical cached bundle created for the first, and `remove` on
one pair erases the other's cache entry; distinct pairs are guaranteed
distinct cache keys when the components are `':'`-free. -/
theorem atoms_composite_key_aliasing :
    atomKey "a" "b:c" = atomKey "a:b" "c" ∧
    (getModuleAtoms exAtomsState₂ "a:b" "c"
        = .ok (exAliasBundle, exAtomsState₂) ∧
      hasModuleAtoms exAtomsState₂ "a:b" "c" = true ∧
      hasModuleAtoms (removeModuleAtoms exAtomsState₂ "a:b" "c") "a" "b:c"
        = false) ∧
    (∀ t₁ i₁ t₂ i₂ : String, ':' ∉ t₁.data → ':' ∉ i₁.data →
      ':' ∉ t₂.data → ':' ∉ i₂.data → (t₁, i₁) ≠ (t₂, i₂) →
      atomKey t₁ i₁ ≠ atomKey t₂ i₂) := by
  refine ⟨rfl, ⟨rfl, rfl, rfl⟩, ?_⟩
  intro t₁ i₁ t₂ i₂ ht₁ _ ht₂ _ hne hkey
  obtain ⟨h₁, h₂⟩ := atomKey_injective_of_sep_free ht₁ ht₂ hkey
  exact hne (by rw [h₁, h₂])

/-- Claim C10 witness: the separator-free key-injectivity conjunct applied to
the distinct pairs `("timer", "w1")` and `("timer", "w2")`. -/
theorem atoms_composite_key_aliasing_witness :
    (':' ∉ ("timer" : String).data ∧ ':' ∉ ("w1" : String).data ∧
      ':' ∉ ("w2" : String).data ∧
      (("timer", "w1") : String × String) ≠ ("timer", "w2")) ∧
    atomKey "timer" "w1" ≠ atomKey "timer" "w2" :=
  ⟨⟨by decide, by decide, by decide, by decide⟩,
    atoms_composite_key_aliasing.2.2 "timer" "w1" "timer" "w2"
      (by decide) (by decide) (by decide) (by decide) (by decide)⟩

/-! ## Claim C2: subscribe-all -/

/-- Claim C2 (code bug): `onAll` tries to enumerate the event types with
`Object.values(ModuleEventType)`, but `ModuleEventType` is a type-only
alias with no runtime value (see `runtimeModuleEventTypeValue`), so every
`onAll` call fails with a ReferenceError before subscribing the callback
to anything — the subscriber map is left exactly as it was.  The sibling
copy of the event bus in the repository enumerates the six event types
explicitly at this point, which is the intended behaviour the claim
describes. -/
theorem onAll_throws_reference_error (bus : EventBus π) (cb : Nat) :
    onAll bus cb = .error "ReferenceError: ModuleEventType is not defined" :=
  rfl

/-! ## Claim C4: emit order and subscriber isolation -/

theorem subscribersOf_busOn_self (bus : EventBus π) (t : ModuleEventType)
    (cb : Nat) :
    subscribersOf t (busOn bus t cb) = addToSet cb (subscribersOf t bus) := by
  unfold subscribersOf busOn
  rw [jsMapGet_jsMapSet_self]
  rfl

theorem subscribersOf_registerAll (t : ModuleEventType) (cbs : List Nat) :
    ∀ (bus : EventBus π), cbs.Nodup →
    (∀ c ∈ cbs, c ∉ subscribersOf t bus) →
    subscribersOf t (registerAll bus t cbs) = subscribersOf t bus ++ cbs := by
  induction cbs with
  | nil => intro bus _ _; simp [registerAll]
  | cons c cs ih =>
    intro bus hnd hfresh
    rw [List.nodup_cons] at hnd
    have hstep : subscribersOf t (busOn bus t c)
        = subscribersOf t bus ++ [c] := by
      rw [subscribersOf_busOn_self]
      unfold addToSet
      rw [if_neg (hfresh c (List.mem_cons_self .. ))]
    have hrest : ∀ c₂ ∈ cs, c₂ ∉ subscribersOf t (busOn bus t c) := by
      intro c₂ hmem
      rw [hstep]
      simp only [List.mem_append, List.mem_singleton]
      rintro (hin | hin)
      · exact hfresh c₂ (List.mem_cons_of_mem _ hmem) hin
      · exact hnd.1 (hin ▸ hmem)
    calc subscribersOf t (registerAll (busOn bus t c) t cs)
        = subscribersOf t (busOn bus t c) ++ cs := ih _ hnd.2 hrest
      _ = subscribersOf t bus ++ c :: cs := by rw [hstep, List.append_assoc]; rfl

theorem emit_trace (env : Nat → ModuleEvent π → Except String Unit)
    (bus : EventBus π) (a : EmitArgs π) :
    (emit env bus a).2 = (subscribersOf a.eventType bus).map fun cb =>
      match env cb (eventOfArgs a) with
      | .ok _ => (cb, true)
      | .error _ => (cb, false) := by
  unfold emit subscribersOf
  dsimp only
  have hev : (logEvent bus (eventOfArgs a)).events = bus.events := by
    unfold logEvent
    by_cases hlen : (bus.heap bus.logRef ++ [eventOfArgs a]).length > maxLogSize
    · rw [if_pos hlen]
    · rw [if_neg hlen]
  rw [hev]
  cases hget : jsMapGet a.eventType bus.events <;> simp

/-- Claim C4 (confirmed): registering distinct, not-yet-subscribed callbacks
`s1..sn` in order on one event type and then emitting that type invokes
the previously present subscribers followed by `s1..sn`, each exactly
once, in registration order — whatever the callbacks do: a throwing
callback is recorded as caught (`false` in the trace), the exception does
not propagate (`emit` is total, returning the new bus state and the
trace), and all later callbacks are still invoked. -/
theorem emit_order_and_isolation (env : Nat → ModuleEvent π → Except String Unit)
    (bus : EventBus π) (t : ModuleEventType) (cbs : List Nat)
    (payload : Option π) (moduleId moduleType : Option String) (now : Nat)
    (hnd : cbs.Nodup) (hfresh : ∀ c ∈ cbs, c ∉ subscribersOf t bus) :
    ((emit env (registerAll bus t cbs) ⟨t, payload, moduleId, moduleType, now⟩).2).map
        Prod.fst
      = subscribersOf t bus ++ cbs := by
  rw [emit_trace, subscribersOf_registerAll t cbs bus hnd hfresh,
    List.map_map]
  have : (Prod.fst ∘ fun cb =>
      match env cb (eventOfArgs ⟨t, payload, moduleId, moduleType, now⟩) with
      | .ok _ => (cb, true)
      | .error _ => (cb, false)) = id := by
    funext cb
    simp only [Function.comp_apply, id_eq]
    cases env cb (eventOfArgs ⟨t, payload, moduleId, moduleType, now⟩) <;> rfl
  rw [this, List.map_id]

/-- Claim C4 witness: three subscribers `[1, 2, 3]` on a fresh bus, the middle
one throwing; the emitted trace still invokes `1, 2, 3` in order. -/
theorem emit_order_and_isolation_witness :
    ([1, 2, 3] : List Nat).Nodup ∧
    (∀ c ∈ ([1, 2, 3] : List Nat),
      c ∉ subscribersOf .moduleStateChanged (initialBus (π := Nat))) ∧
    ((emit (fun cb _ => if cb = 2 then .error "subscriber boom" else .ok ())
        (registerAll (initialBus (π := Nat)) .moduleStateChanged [1, 2, 3])
        ⟨.moduleStateChanged, some 90, some "inst-1", some "metronome", 5⟩).2).map
        Prod.fst
      = subscribersOf .moduleStateChanged (initialBus (π := Nat)) ++ [1, 2, 3] :=
  ⟨by decide, by decide,
    emit_order_and_isolation
      (fun cb _ => if cb = 2 then .error "subscriber boom" else .ok ())
      (initialBus (π := Nat)) .moduleStateChanged [1, 2, 3]
      (some 90) (some "inst-1") (some "metronome") 5
      (by decide) (by decide)⟩

/-! ## Claim C7: bounded event log, snapshot semantics -/

theorem heapSet_self (h : Nat → List (ModuleEvent π)) (r : Nat)
    (v : List (ModuleEvent π)) : heapSet h r v r = v := by
  simp [heapSet]

theorem heapSet_other (h : Nat → List (ModuleEvent π)) {r r₂ : Nat}
    (v : List (ModuleEvent π)) (hne : r₂ ≠ r) : heapSet h r v r₂ = h r₂ := by
  simp [heapSet, hne]

theorem logContents_append_one (X : List (ModuleEvent π)) (e : ModuleEvent π) :
    (if 100 < (logContents X ++ [e]).length then
        (logContents X ++ [e]).drop ((logContents X ++ [e]).length - 100)
      else logContents X ++ [e])
      = logContents (X ++ [e]) := by
  have hXlen : (logContents X).length = X.length - (X.length - 100) := by
    simp [logContents, maxLogSize]
  by_cases hge : 100 ≤ X.length
  · have hclen : (logContents X).length = 100 := by omega
    have hcond : 100 < (logContents X ++ [e]).length := by
      simp [List.length_append, hclen]
    rw [if_pos hcond]
    have hdrop1 : (logContents X ++ [e]).length - 100 = 1 := by
      simp [List.length_append, hclen]
    rw [hdrop1,
      List.drop_append_of_le_length (by omega : 1 ≤ (logContents X).length)]
    unfold logContents
    simp only [maxLogSize, List.length_append, List.length_singleton]
    rw [List.drop_append_of_le_length
        (by omega : X.length + 1 - 100 ≤ X.length),
      List.drop_drop, show X.length - 100 + 1 = X.length + 1 - 100 by omega]
  · push_neg at hge
    have hXid : logContents X = X := by
      unfold logContents
      rw [show X.length - maxLogSize = 0 by simp only [maxLogSize]; omega,
        List.drop_zero]
    rw [hXid]
    have hcond : ¬ 100 < (X ++ [e]).length := by
      simp only [List.length_append, List.length_singleton]
      omega
    rw [if_neg hcond]
    unfold logContents
    simp only [maxLogSize, List.length_append, List.length_singleton]
    rw [show X.length + 1 - 100 = 0 by omega, List.drop_zero]

theorem logEvent_contents_step (bus : EventBus π) (e : ModuleEvent π)
    (X : List (ModuleEvent π)) (hlog : bus.heap bus.logRef = logContents X)
    (hlt : bus.logRef < bus.fresh) :
    (logEvent bus e).heap (logEvent bus e).logRef = logContents (X ++ [e]) ∧
    (logEvent bus e).logRef < (logEvent bus e).fresh := by
  have hmain := logContents_append_one X e
  have hM : maxLogSize = 100 := rfl
  unfold logEvent
  rw [hlog, hM]
  by_cases hcond : 100 < (logContents X ++ [e]).length
  · rw [if_pos hcond] at hmain
    rw [if_pos hcond]
    dsimp only
    rw [heapSet_self]
    exact ⟨hmain, Nat.lt_succ_self _⟩
  · rw [if_neg hcond] at hmain
    rw [if_neg hcond]
    dsimp only
    rw [heapSet_self]
    exact ⟨hmain, hlt⟩

theorem logEvent_frame (bus : EventBus π) (e : ModuleEvent π) {r : Nat}
    (hne : r ≠ bus.logRef) (hlt : r < bus.fresh) :
    (logEvent bus e).heap r = bus.heap r ∧
    r ≠ (logEvent bus e).logRef ∧ r < (logEvent bus e).fresh := by
  unfold logEvent
  by_cases hlen : (bus.heap bus.logRef ++ [e]).length > maxLogSize
  · rw [if_pos hlen]
    dsimp only
    refine ⟨?_, fun hc => absurd (hc ▸ hlt) (Nat.lt_irrefl _), by omega⟩
    rw [heapSet_other _ _ (fun hc => absurd (hc ▸ hlt) (Nat.lt_irrefl _)),
      heapSet_other _ _ hne]
  · rw [if_neg hlen]
    dsimp only
    exact ⟨heapSet_other _ _ hne, hne, hlt⟩

theorem emitMany_contents (env : Nat → ModuleEvent π → Except String Unit)
    (items : List (EmitArgs π)) :
    ∀ (bus : EventBus π) (X : List (ModuleEvent π)),
    bus.heap bus.logRef = logContents X → bus.logRef < bus.fresh →
    (emitMany env bus items).heap (emitMany env bus items).logRef
        = logContents (X ++ items.map eventOfArgs) ∧
    (emitMany env bus items).logRef < (emitMany env bus items).fresh := by
  induction items with
  | nil => intro bus X hlog hlt; simpa [emitMany] using ⟨hlog, hlt⟩
  | cons a rest ih =>
    intro bus X hlog hlt
    obtain ⟨hlog₂, hlt₂⟩ :=
      logEvent_contents_step bus (eventOfArgs a) X hlog hlt
    have hstep : emitMany env bus (a :: rest)
        = emitMany env (logEvent bus (eventOfArgs a)) rest := rfl
    rw [hstep]
    obtain ⟨h₁, h₂⟩ := ih (logEvent bus (eventOfArgs a)) (X ++ [eventOfArgs a])
      hlog₂ hlt₂
    exact ⟨by rw [h₁, List.append_assoc]; rfl, h₂⟩

theorem emitMany_frame (env : Nat → ModuleEvent π → Except String Unit)
    (items : List (EmitArgs π)) :
    ∀ (bus : EventBus π) {r : Nat}, r ≠ bus.logRef → r < bus.fresh →
    (emitMany env bus items).heap r = bus.heap r ∧
    r ≠ (emitMany env bus items).logRef ∧
    r < (emitMany env bus items).fresh := by
  induction items with
  | nil => intro bus r hne hlt; exact ⟨rfl, hne, hlt⟩
  | cons a rest ih =>
    intro bus r hne hlt
    obtain ⟨h₁, h₂, h₃⟩ := logEvent_frame bus (eventOfArgs a) hne hlt
    obtain ⟨h₄, h₅, h₆⟩ := ih (logEvent bus (eventOfArgs a)) h₂ h₃
    exact ⟨h₄.trans h₁, h₅, h₆⟩

/-- Claim C7 (confirmed): after more than 100 `emit` calls on a fresh bus,
`getEventLog()` returns exactly the 100 most recently emitted events in
emission order (oldest first), and what it returns is a snapshot copy,
not a live view: the handed-out array is a different cell from the
internal log, and any further sequence of `emit` calls leaves the
snapshot's contents untouched. -/
theorem eventBus_log_bound (env : Nat → ModuleEvent π → Except String Unit)
    (items : List (EmitArgs π)) (hn : 100 < items.length) :
    (getEventLog (emitMany env (initialBus (π := π)) items)).1.heap
        (getEventLog (emitMany env (initialBus (π := π)) items)).2
      = (items.map eventOfArgs).drop (items.length - 100) ∧
    ((items.map eventOfArgs).drop (items.length - 100)).length = 100 ∧
    (getEventLog (emitMany env (initialBus (π := π)) items)).2
      ≠ (getEventLog (emitMany env (initialBus (π := π)) items)).1.logRef ∧
    ∀ (env₂ : Nat → ModuleEvent π → Except String Unit)
      (items₂ : List (EmitArgs π)),
      (emitMany env₂ (getEventLog (emitMany env (initialBus (π := π)) items)).1
          items₂).heap
          (getEventLog (emitMany env (initialBus (π := π)) items)).2
        = (items.map eventOfArgs).drop (items.length - 100) := by
  obtain ⟨hlog, hlt⟩ := emitMany_contents env items (initialBus (π := π)) []
    rfl Nat.zero_lt_one
  rw [List.nil_append] at hlog
  have hfinal : logContents (items.map eventOfArgs)
      = (items.map eventOfArgs).drop (items.length - 100) := by
    unfold logContents maxLogSize
    rw [List.length_map]
  have hsnapval : (getEventLog (emitMany env (initialBus (π := π)) items)).1.heap
      (getEventLog (emitMany env (initialBus (π := π)) items)).2
      = (items.map eventOfArgs).drop (items.length - 100) := by
    show heapSet (emitMany env (initialBus (π := π)) items).heap
      (emitMany env (initialBus (π := π)) items).fresh
      ((emitMany env (initialBus (π := π)) items).heap
        (emitMany env (initialBus (π := π)) items).logRef)
      (emitMany env (initialBus (π := π)) items).fresh
      = _
    rw [heapSet_self, hlog, hfinal]
  have hne : (getEventLog (emitMany env (initialBus (π := π)) items)).2
      ≠ (getEventLog (emitMany env (initialBus (π := π)) items)).1.logRef :=
    fun hc => absurd (hc ▸ hlt) (Nat.lt_irrefl _)
  refine ⟨hsnapval, ?_, hne, ?_⟩
  · rw [List.length_drop, List.length_map]
    omega
  · intro env₂ items₂
    obtain ⟨h₁, _, _⟩ := emitMany_frame env₂ items₂
      (getEventLog (emitMany env (initialBus (π := π)) items)).1 hne
      (show (getEventLog (emitMany env (initialBus (π := π)) items)).2
        < (getEventLog (emitMany env (initialBus (π := π)) items)).1.fresh
        from Nat.lt_succ_self _)
    rw [h₁, hsnapval]

/-- Claim C7 witness: the log-bound theorem applied to 101 concrete emits. -/
theorem eventBus_log_bound_witness :
    (100 < ((List.range 101).map fun n =>
      (⟨.moduleStateChanged, none, none, none, n⟩ : EmitArgs Nat)).length) ∧
    ((getEventLog (emitMany (fun _ _ => .ok ()) (initialBus (π := Nat))
        ((List.range 101).map fun n =>
          (⟨.moduleStateChanged, none, none, none, n⟩ : EmitArgs Nat)))).1.heap
        (getEventLog (emitMany (fun _ _ => .ok ()) (initialBus (π := Nat))
        ((List.range 101).map fun n =>
          (⟨.moduleStateChanged, none, none, none, n⟩ : EmitArgs Nat)))).2
      = (((List.range 101).map fun n =>
          (⟨.moduleStateChanged, none, none, none, n⟩ : EmitArgs Nat)).map
            eventOfArgs).drop
          (((List.range 101).map fun n =>
            (⟨.moduleStateChanged, none, none, none, n⟩ : EmitArgs Nat)).length
            - 100)) :=
  ⟨by simp, (eventBus_log_bound (fun _ _ => .ok ())
    ((List.range 101).map fun n =>
      (⟨.moduleStateChanged, none, none, none, n⟩ : EmitArgs Nat))
    (by simp)).1⟩

end Lythra
